import Mathlib

/-!
Verification of the paper-filtering pipeline: the affiliation classifier
and company extractor (company_detector.py), the record normalizer
(pubmed_client.py) and the tabular serializer (csv_writer.py).

All string handling is over ASCII input, mirroring the Python semantics
of the source; Python sets are modelled as duplicate-free lists built by
insert-if-absent, so emptiness and membership coincide with the source.
-/

namespace PaperPipeline

/-! ### Basic string machinery (mirroring Python string semantics) -/

/-- The characters Python `str.strip` / `str.split` / the regex class
backslash-s treat as whitespace. -/
def pyIsSpace (c : Char) : Bool :=
  c == ' ' || c == '\t' || c == '\n' || c == '\r' || c == '\x0b' || c == '\x0c'

/-- The needle is an initial segment of the hay. -/
def leadsList : List Char → List Char → Bool
  | [], _ => true
  | _ :: _, [] => false
  | a :: as, b :: bs => a == b && leadsList as bs

/-- Substring occurrence test, Python's `needle in hay`. -/
def occursIn (needle : List Char) : List Char → Bool
  | [] => leadsList needle []
  | c :: rest => leadsList needle (c :: rest) || occursIn needle rest

/-- Python `str.lower()` on ASCII content, as a character list. -/
def lowerL (s : String) : List Char := s.toList.map Char.toLower

/-- Split a character list at whitespace runs, dropping empty pieces:
Python `str.split()` with no argument. -/
def splitWsAux : List Char → List Char → List (List Char)
  | [], acc => if acc.isEmpty then [] else [acc.reverse]
  | c :: cs, acc =>
    if pyIsSpace c then
      if acc.isEmpty then splitWsAux cs [] else acc.reverse :: splitWsAux cs []
    else splitWsAux cs (c :: acc)

def pySplitWs (s : String) : List (List Char) := splitWsAux s.toList []

/-- Python `" ".join(words)`. -/
def joinSpace (ws : List (List Char)) : List Char := List.intercalate [' '] ws

/-- Python `str.strip()`. -/
def pyStripL (l : List Char) : List Char :=
  ((l.dropWhile pyIsSpace).reverse.dropWhile pyIsSpace).reverse

def pyStrip (s : String) : String := String.mk (pyStripL s.toList)

/-- Replace every maximal whitespace run by a single space:
`re.sub(r"\s+", " ", _)`. -/
def squeezeSp : List Char → List Char
  | [] => []
  | [c] => if pyIsSpace c then [' '] else [c]
  | c :: d :: rest =>
    if pyIsSpace c && pyIsSpace d then squeezeSp (d :: rest)
    else (if pyIsSpace c then ' ' else c) :: squeezeSp (d :: rest)

/-- Greedy split: the longest prefix satisfying `p`, and the rest. -/
def takeRun (p : Char → Bool) : List Char → List Char × List Char
  | [] => ([], [])
  | c :: cs =>
    if p c then
      let r := takeRun p cs
      (c :: r.1, r.2)
    else ([], c :: cs)

/-- Duplicate-free-list model of Python `set.add`. -/
def setAdd (s : List String) (x : String) : List String :=
  if s.contains x then s else s ++ [x]

/-- Duplicate-free-list model of Python `set.update`. -/
def setUnion (s : List String) (xs : List String) : List String :=
  xs.foldl setAdd s

/-! ### CompanyDetector: static heuristic tables (company_detector.py) -/

def pharma_companies : List String :=
  ["pfizer", "johnson & johnson", "j&j", "janssen", "roche", "genentech",
   "novartis", "merck", "msd", "bristol-myers squibb", "bms", "abbvie",
   "sanofi", "glaxosmithkline", "gsk", "astrazeneca", "boehringer ingelheim",
   "takeda", "eli lilly", "lilly", "bayer", "biogen", "celgene",
   "amgen", "gilead", "regeneron", "vertex", "moderna", "biontech",
   "alexion", "shire", "allergan", "teva", "mylan", "sandoz",
   "hospira", "watson", "actavis", "valeant", "mallinckrodt",
   "endo", "purdue pharma", "otsuka", "daiichi sankyo", "astellas",
   "eisai", "sumitomo dainippon", "mitsubishi tanabe", "chugai",
   "kyowa kirin", "ono pharmaceutical", "shionogi", "tsumura"]

def biotech_companies : List String :=
  ["genentech", "amgen", "biogen", "celgene", "regeneron", "vertex",
   "moderna", "biontech", "alexion", "incyte", "bluebird bio",
   "crispr therapeutics", "editas medicine", "intellia therapeutics",
   "sangamo therapeutics", "precision biosciences", "beam therapeutics",
   "prime medicine", "mammoth biosciences", "caribou biosciences",
   "allogene therapeutics", "car-t", "juno therapeutics", "kite pharma",
   "novartis gene therapies", "bluerock therapeutics", "fate therapeutics",
   "cellular biomedicine", "celularity", "cellectis", "celyad",
   "oxford biomedica", "orchard therapeutics", "uniqure", "spark therapeutics",
   "avexis", "zolgensma", "luxturna", "kymriah", "yescarta", "tecartus",
   "abecma", "breyanzi", "carvykti", "roctavian", "hemgenix", "casgevy"]

def company_indicators : List String :=
  ["pharmaceutical", "pharmaceuticals", "pharma", "biotech", "biotechnology",
   "biopharmaceutical", "biopharmaceuticals", "therapeutics", "medicines",
   "drug", "drugs", "vaccines", "biologics", "biosimilar", "biosimilars",
   "clinical research", "clinical development", "r&d", "research and development",
   "medical affairs", "global medical", "regulatory affairs"]

def corporate_suffixes : List String :=
  ["inc", "incorporated", "corp", "corporation", "ltd", "limited", "llc",
   "plc", "ag", "sa", "bv", "nv", "gmbh", "co", "company", "companies",
   "group", "holdings", "international", "global", "worldwide", "usa",
   "america", "europe", "asia", "japan", "china", "uk", "germany", "france"]

/-- The academic-institution indicator set local to `_is_non_academic`. -/
def academic_indicators : List String :=
  ["university", "college", "school", "institute", "hospital",
   "medical center", "health center", "clinic", "academic",
   "department", "faculty", "laboratory", "lab", "center for",
   "national institutes", "nih", "nsf", "research center",
   "medical school", "graduate school", "postdoctoral",
   "graduate student", "undergraduate", "phd", "md", "dvm"]

/-- `pharma_companies.union(biotech_companies)`; list append has the same
membership as the Python set union. -/
def known_companies : List String := pharma_companies ++ biotech_companies

/-- `CompanyDetector._is_non_academic`: the ordered rule cascade over the
lower-cased affiliation string. -/
def is_non_academic (affiliation : String) : Bool :=
  let lo := lowerL affiliation
  if academic_indicators.any (fun k => occursIn k.toList lo) then false
  else if company_indicators.any (fun k => occursIn k.toList lo) then true
  else if known_companies.any (fun c => occursIn c.toList lo) then true
  else if corporate_suffixes.any (fun suf =>
      occursIn (" " ++ suf).toList lo || occursIn (" " ++ suf ++ ".").toList lo) then true
  else false

/-! ### Company-name extraction patterns

`_extract_company_names` runs `re.findall` with three patterns of the
common shape `([A-Z][A-Za-z\s&-]+(?:ALT1|ALT2|...)TAIL)` under
`re.IGNORECASE`, where TAIL is an optional literal (a dot for the first
pattern, an `s` for the second, absent for the third).  The engine below
implements exactly that shape: a letter (the `[A-Z]` class under
IGNORECASE), a greedy `[A-Za-z\s&-]+` run with backtracking, a
left-to-right alternation of literal words, and a greedy optional
character. -/

/-- The class `[A-Za-z\s&-]` of the middle run (IGNORECASE). -/
def clsB (c : Char) : Bool := c.isAlpha || pyIsSpace c || c == '&' || c == '-'

/-- Case-insensitive literal match at the head: the needle is stored
lower-case, the hay is original text. -/
def lowerStartsAt : List Char → List Char → Bool
  | [], _ => true
  | _ :: _, [] => false
  | a :: as, b :: bs => a == Char.toLower b && lowerStartsAt as bs

/-- Left-to-right alternation of literal words; returns the length the
first matching alternative consumes. -/
def tryAltsAt (alts : List (List Char)) (l : List Char) : Option Nat :=
  match alts with
  | [] => none
  | a :: rest => if lowerStartsAt a l then some a.length else tryAltsAt rest l

/-- A greedy optional literal character (`\.?` or `s?`, IGNORECASE). -/
def optTake (optC : Option Char) (l : List Char) : Nat :=
  match optC, l with
  | some oc, c :: _ => if Char.toLower c == oc then 1 else 0
  | _, _ => 0

/-- Backtracking over the greedy `[A-Za-z\s&-]+` run: `k` is the number
of characters the run consumes, tried from the maximal run length down
to 1 ; `rest` is the text after the leading letter.  Returns the total
match length. -/
def backtrackAlt (alts : List (List Char)) (optC : Option Char) (rest : List Char) :
    Nat → Option Nat
  | 0 => none
  | k + 1 =>
    match tryAltsAt alts (rest.drop (k + 1)) with
    | some n => some (1 + (k + 1) + n + optTake optC (rest.drop (k + 1 + n)))
    | none => backtrackAlt alts optC rest k

/-- Match attempt at one position of the subject. -/
def matchPatAt (alts : List (List Char)) (optC : Option Char) : List Char → Option Nat
  | [] => none
  | c :: rest =>
    if c.isAlpha then backtrackAlt alts optC rest (takeRun clsB rest).1.length
    else none

/-- `re.findall` scan: left to right, non-overlapping, resuming after
each match.  Every match is at least one character long, so a fuel equal
to the subject length is exact. -/
def findAllAux (alts : List (List Char)) (optC : Option Char) :
    Nat → List Char → List (List Char)
  | 0, _ => []
  | _, [] => []
  | fuel + 1, c :: cs =>
    match matchPatAt alts optC (c :: cs) with
    | some n => (c :: cs).take n :: findAllAux alts optC fuel ((c :: cs).drop n)
    | none => findAllAux alts optC fuel cs

def re_findall (alts : List String) (optC : Option Char) (s : String) : List String :=
  (findAllAux (alts.map String.toList) optC s.toList.length s.toList).map String.mk

/-- Alternatives of `(?:Inc|Corp|Ltd|LLC|PLC|AG|SA|BV|NV|GmbH)\.?`,
lower-cased (matching is case-insensitive). -/
def pattern1_alts : List String :=
  ["inc", "corp", "ltd", "llc", "plc", "ag", "sa", "bv", "nv", "gmbh"]

/-- Alternatives of `(?:Pharmaceutical|Pharma|Biotech|Therapeutics)s?`. -/
def pattern2_alts : List String :=
  ["pharmaceutical", "pharma", "biotech", "therapeutics"]

/-- Alternatives of `(?:Company|Group|Holdings|International|Global)`. -/
def pattern3_alts : List String :=
  ["company", "group", "holdings", "international", "global"]

/-! ### Company-name standardization and cleaning -/

def abbreviations : List String := ["j&j", "bms", "gsk", "msd", "r&d"]

/-- Python `str.capitalize()`: first character upper-cased, the rest
lower-cased. -/
def pyCapitalize : List Char → List Char
  | [] => []
  | c :: cs => Char.toUpper c :: cs.map Char.toLower

/-- `CompanyDetector._standardize_company_name`. -/
def standardize_company_name (company_name : String) : String :=
  let words := pySplitWs company_name
  String.mk (joinSpace (words.map fun w =>
    let lw := w.map Char.toLower
    if abbreviations.any (fun a => lw == a.toList) then w.map Char.toUpper
    else if lw == ['&'] then ['&']
    else pyCapitalize w))

/-- `CompanyDetector._clean_company_name`: collapse whitespace on the
stripped name, drop trailing `.,;:` runs, standardize. -/
def clean_company_name (company_name : String) : String :=
  let cleaned := squeezeSp (pyStripL company_name.toList)
  let cleaned := (cleaned.reverse.dropWhile
    (fun c => c == '.' || c == ',' || c == ';' || c == ':')).reverse
  standardize_company_name (String.mk cleaned)

/-- `CompanyDetector._extract_company_names`: the known-company table
matches plus the three capitalized-phrase patterns, cleaned and kept only
above length 3; the result set is modelled as a duplicate-free list. -/
def extract_company_names (affiliation : String) : List String :=
  let lo := lowerL affiliation
  let fromTable := known_companies.foldl (fun acc c =>
    if occursIn c.toList lo then setAdd acc (standardize_company_name c) else acc) []
  let ms := re_findall pattern1_alts (some '.') affiliation
         ++ re_findall pattern2_alts (some 's') affiliation
         ++ re_findall pattern3_alts none affiliation
  ms.foldl (fun acc m =>
    let clean := clean_company_name m
    if clean != "" && 3 < clean.length then setAdd acc clean else acc) fromTable

/-! ### detect_companies and the paper filter -/

/-- Loop body of `CompanyDetector.detect_companies`. -/
def detectStep (acc : List String) (affiliation : String) : List String :=
  if is_non_academic affiliation then setUnion acc (extract_company_names affiliation)
  else acc

/-- `CompanyDetector.detect_companies`. -/
def detect_companies (affiliations : List String) : List String :=
  affiliations.foldl detectStep []

structure Author where
  name : String
  affiliations : List String
deriving DecidableEq, Repr

/-- A paper record as the filter consumes and produces it; the two
derived fields are empty until the filter attaches them. -/
structure Paper where
  pmid : String
  title : String
  publication_date : String
  authors : List Author
  corresponding_email : String
  non_academic_authors : List String := []
  company_affiliations : List String := []
deriving DecidableEq, Repr

/-- Inner loop of `filter_papers_with_company_authors` over one paper's
authors: the collected non-academic author names (in order) and the
deduplicated company set. -/
def authorStepFilter (st : List String × List String) (author : Author) :
    List String × List String :=
  let author_companies := detect_companies author.affiliations
  if author_companies.isEmpty then st
  else (st.1 ++ [author.name], setUnion st.2 author_companies)

def paperState (authors : List Author) : List String × List String :=
  authors.foldl authorStepFilter ([], [])

/-- `CompanyDetector.filter_papers_with_company_authors`. -/
def filter_papers_with_company_authors : List Paper → List Paper
  | [] => []
  | paper :: rest =>
    let st := paperState paper.authors
    if st.1.isEmpty then filter_papers_with_company_authors rest
    else { paper with non_academic_authors := st.1, company_affiliations := st.2 }
           :: filter_papers_with_company_authors rest

/-! ### CSVWriter (csv_writer.py) -/

/-- Replace one character by another everywhere: Python
`str.replace(a, b)` for single characters. -/
def replCh (a b : Char) (l : List Char) : List Char :=
  l.map fun c => if c == a then b else c

/-- The whitespace-collapsing part of `CSVWriter._clean_text`:
`" ".join(text.split())` followed by the three single-character
replacements of newline, carriage return and tab. -/
def collapse_text (text : String) : List Char :=
  replCh '\t' ' ' (replCh '\r' ' ' (replCh '\n' ' ' (joinSpace (pySplitWs text))))

/-- `CSVWriter._clean_text`. -/
def clean_text (text : String) : String :=
  if text == "" then ""
  else String.mk (if 1000 < (collapse_text text).length
    then (collapse_text text).take 997 ++ ['.', '.', '.'] else collapse_text text)

/-- Python `"; ".join(l) if l else ""`. -/
def joinSemicolon (l : List String) : String :=
  if l.isEmpty then "" else String.intercalate "; " l

/-- `CSVWriter._format_paper_row`: the six-column row. -/
def format_paper_row (paper : Paper) : List String :=
  [paper.pmid,
   clean_text paper.title,
   paper.publication_date,
   joinSemicolon paper.non_academic_authors,
   joinSemicolon paper.company_affiliations,
   paper.corresponding_email]

/-! ### Raw values (xmltodict output shapes) and the normalizer
(pubmed_client.py)

A raw record field is a string, a mapping or a list; Python attribute
errors (`.get` on a non-mapping, `re.search` or `"-".join` on a
non-string) are modelled in `Except Unit`. -/

inductive PyVal where
  | str (s : String)
  | dict (entries : List (String × PyVal))
  | list (items : List PyVal)

/-- First-binding lookup in a mapping (Python dict access, with the
insertion-ordered association list holding each key once in practice). -/
def pyLookup : List (String × PyVal) → String → Option PyVal
  | [], _ => none
  | (k, v) :: rest, key => if k == key then some v else pyLookup rest key

/-- Python `value.get(key, default)`: only mappings have `.get`;
anything else raises `AttributeError`. -/
def pyGet : PyVal → String → PyVal → Except Unit PyVal
  | .dict es, key, dflt => .ok ((pyLookup es key).getD dflt)
  | _, _, _ => .error ()

/-- Python truthiness of raw values: non-empty string / dict / list. -/
def pyTruthy : PyVal → Bool
  | .str s => s != ""
  | .dict es => !es.isEmpty
  | .list xs => !xs.isEmpty

mutual
/-- Python repr of a raw value (str() falls back to this for
containers).  String escaping is the plain single-quote form, which is
exact for the quote-free ASCII content this data carries. -/
def pyReprVal : PyVal → String
  | .str s => "'" ++ s ++ "'"
  | .dict es => "\x7b" ++ pyReprPairs es ++ "\x7d"
  | .list xs => "[" ++ pyReprItems xs ++ "]"

def pyReprPairs : List (String × PyVal) → String
  | [] => ""
  | [(k, v)] => "'" ++ k ++ "': " ++ pyReprVal v
  | (k, v) :: rest => "'" ++ k ++ "': " ++ pyReprVal v ++ ", " ++ pyReprPairs rest

def pyReprItems : List PyVal → String
  | [] => ""
  | [v] => pyReprVal v
  | v :: rest => pyReprVal v ++ ", " ++ pyReprItems rest
end

/-- Python `str(value)`, as an f-string interpolates it. -/
def pyStrOf : PyVal → String
  | .str s => s
  | v => pyReprVal v

/-- The `isinstance(x, dict)` single-key unwrapping applied to the PMID
and ArticleTitle containers: take the `#text` entry of a mapping, keep
anything else as is.  (`.get` on the mapping cannot raise.) -/
def unwrapDictText (v : PyVal) : PyVal :=
  match v with
  | .dict es => (pyLookup es "#text").getD (.str "")
  | v => v

/-- The `isinstance(x, dict)` wrap plus Python `for` iteration: a
mapping becomes the one-element list around it, a list iterates its
items, and iterating a string yields its characters as one-character
strings. -/
def coerceToList : PyVal → List PyVal
  | .dict es => [.dict es]
  | .list xs => xs
  | .str s => s.toList.map fun c => .str (String.mk [c])

/-! #### `_extract_publication_date` -/

/-- Python `"-".join(parts)`: every part must be a string, otherwise a
`TypeError` is raised. -/
def pyJoinDash : List PyVal → Except Unit String
  | [] => .ok ""
  | [.str s] => .ok s
  | .str s :: rest =>
    match pyJoinDash rest with
    | .ok t => .ok (s ++ "-" ++ t)
    | .error e => .error e
  | _ => .error ()

def isWordCh (c : Char) : Bool := c.isAlphanum || c == '_'

/-- One attempt of `re.search(r"\b(19|20)\d{2}\b", _)` at the current
position (`prev` is the character before it). -/
def yearMatchAt (prev : Option Char) : List Char → Option String
  | c1 :: c2 :: c3 :: c4 :: rest =>
    if (match prev with | some p => !isWordCh p | none => true)
        && ((c1 == '1' && c2 == '9') || (c1 == '2' && c2 == '0'))
        && c3.isDigit && c4.isDigit
        && (match rest with | [] => true | r :: _ => !isWordCh r) then
      some (String.mk [c1, c2, c3, c4])
    else none
  | _ => none

def yearSearchAux (prev : Option Char) : List Char → Option String
  | [] => none
  | c :: cs =>
    match yearMatchAt prev (c :: cs) with
    | some y => some y
    | none => yearSearchAux (some c) cs

/-- `re.search(r"\b(19|20)\d{2}\b", s)`, returning the matched text. -/
def year_search (s : String) : Option String := yearSearchAux none s.toList

/-- `PubMedClient._extract_publication_date` before its catch-all. -/
def extract_publication_date_core (article_info : PyVal) : Except Unit String :=
  match pyGet article_info "Journal" (.dict []) with
  | .error e => .error e
  | .ok journal =>
  match pyGet journal "JournalIssue" (.dict []) with
  | .error e => .error e
  | .ok issue =>
  match pyGet issue "PubDate" (.dict []) with
  | .error e => .error e
  | .ok pub_date =>
  match pyGet pub_date "Year" (.str "") with
  | .error e => .error e
  | .ok year =>
  match pyGet pub_date "Month" (.str "") with
  | .error e => .error e
  | .ok month =>
  match pyGet pub_date "Day" (.str "") with
  | .error e => .error e
  | .ok day =>
  if pyTruthy year then
    pyJoinDash ([year] ++
      (if pyTruthy month then [month] ++ (if pyTruthy day then [day] else []) else []))
  else
    match pyGet pub_date "MedlineDate" (.str "") with
    | .error e => .error e
    | .ok medline_date =>
      if pyTruthy medline_date then
        match medline_date with
        | .str s => .ok ((year_search s).getD "")
        | _ => .error ()
      else .ok ""

/-- `PubMedClient._extract_publication_date`: the catch-all returns the
empty string. -/
def extract_publication_date (article_info : PyVal) : String :=
  match extract_publication_date_core article_info with
  | .ok s => s
  | .error _ => ""

/-! #### `_extract_authors` -/

/-- A normalized author as `_extract_authors` emits it: the constructed
name and the raw affiliation values collected for the author. -/
structure RawAuthor where
  name : String
  affiliations : List PyVal

/-- The affiliation-collection loop of `_extract_authors`: every truthy
`Affiliation` value is kept, in order; `.get` raises on non-mapping
entries (for instance the one-character strings produced by iterating a
string-shaped AffiliationInfo). -/
def collectAffs : List PyVal → Except Unit (List PyVal)
  | [] => .ok []
  | aff :: rest =>
    match pyGet aff "Affiliation" (.str "") with
    | .error e => .error e
    | .ok a =>
      match collectAffs rest with
      | .error e => .error e
      | .ok tailAffs => .ok (if pyTruthy a then a :: tailAffs else tailAffs)

/-- Processing of one entry of the author list: name construction with
the initials fallback, affiliation collection, and the final non-empty
name guard deciding whether the entry is kept. -/
def authorStep (author : PyVal) : Except Unit (Option RawAuthor) :=
  match pyGet author "LastName" (.str "") with
  | .error e => .error e
  | .ok last_name =>
  match pyGet author "ForeName" (.str "") with
  | .error e => .error e
  | .ok first_name =>
  match pyGet author "Initials" (.str "") with
  | .error e => .error e
  | .ok initials =>
  let name0 := pyStrip (pyStrOf first_name ++ " " ++ pyStrOf last_name)
  let name := if name0 == "" && pyTruthy initials && pyTruthy last_name then
      pyStrip (pyStrOf initials ++ " " ++ pyStrOf last_name)
    else name0
  match pyGet author "AffiliationInfo" (.list []) with
  | .error e => .error e
  | .ok ai =>
  match collectAffs (coerceToList ai) with
  | .error e => .error e
  | .ok affiliations =>
    .ok (if name == "" then none else some ⟨name, affiliations⟩)

def goEntries : List PyVal → Except Unit (List RawAuthor)
  | [] => .ok []
  | a :: rest =>
    match authorStep a with
    | .error e => .error e
    | .ok r =>
      match goEntries rest with
      | .error e => .error e
      | .ok rs => .ok (match r with | some x => x :: rs | none => rs)

/-- `PubMedClient._extract_authors` before its catch-all. -/
def extract_authors_core (article_info : PyVal) : Except Unit (List RawAuthor) :=
  match pyGet article_info "AuthorList" (.dict []) with
  | .error e => .error e
  | .ok al =>
  match pyGet al "Author" (.list []) with
  | .error e => .error e
  | .ok av => goEntries (coerceToList av)

/-- `PubMedClient._extract_authors`: the catch-all returns the empty
list, discarding every author of the record. -/
def extract_authors (article_info : PyVal) : List RawAuthor :=
  match extract_authors_core article_info with
  | .ok l => l
  | .error _ => []

/-! #### `_extract_corresponding_email`

The pattern `\b[A-Za-z0-9._%+-]+@[A-Za-z0-9.-]+\.[A-Z|a-z]{2,}\b` is
implemented character-exactly, including the literal `|` inside the
final character class.  The local-part run needs no backtracking (`@` is
not in its class); the domain run backtracks over its greedy length for
the literal dot; the final run backtracks over its greedy length for the
trailing word boundary. -/

/-- The class `[A-Za-z0-9._%+-]` of the local part. -/
def emailLocalCls (c : Char) : Bool :=
  c.isAlphanum || c == '.' || c == '_' || c == '%' || c == '+' || c == '-'

/-- The class `[A-Za-z0-9.-]` of the domain part. -/
def emailDomainCls (c : Char) : Bool := c.isAlphanum || c == '.' || c == '-'

/-- The class `[A-Z|a-z]` as the source writes it: letters and the
literal `|`. -/
def emailFinalCode (c : Char) : Bool := c.isAlpha || c == '|'

/-- The final class as the specification words it: alphabetic only. -/
def emailFinalSpec (c : Char) : Bool := c.isAlpha

/-- Word-character test at an index of a character sequence (false past
the end). -/
def wordAt (l : List Char) (n : Nat) : Bool :=
  match l.drop n with
  | [] => false
  | c :: _ => isWordCh c

/-- Backtracking for `CLS{2,}\b`: `fseq` is the text from the final
part's start; lengths are tried from the greedy run length down to 2,
accepting the first with a word boundary after it. -/
def pickFinalLen (fseq : List Char) : Nat → Option Nat
  | 0 => none
  | 1 => none
  | n + 2 =>
    if wordAt fseq (n + 1) != wordAt fseq (n + 2) then some (n + 2)
    else pickFinalLen fseq (n + 1)

/-- Backtracking for `[A-Za-z0-9.-]+\.CLS{2,}\b` after the `@`: `dr` is
the greedy domain run and `drest` the text after it; the domain length
`v` is tried from the run length minus one down to 1 (at the full run
the following character is never a dot).  Returns the domain length and
the final-part length. -/
def pickDom (fcls : Char → Bool) (dr drest : List Char) : Nat → Option (Nat × Nat)
  | 0 => none
  | k + 1 =>
    if (match dr.drop (k + 1) with | '.' :: _ => true | _ => false) then
      let fseq := dr.drop (k + 2) ++ drest
      match pickFinalLen fseq (takeRun fcls fseq).1.length with
      | some n => some (k + 1, n)
      | none => pickDom fcls dr drest k
    else pickDom fcls dr drest k

/-- One match attempt of the email pattern at the current position
(`prev` is the character before it, for the leading `\b`). -/
def emailAttempt (fcls : Char → Bool) (prev : Option Char) (l : List Char) :
    Option (List Char) :=
  match l with
  | [] => none
  | c :: _ =>
    if (match prev with | some p => isWordCh p | none => false) != isWordCh c then
      let lr := takeRun emailLocalCls l
      if lr.1.isEmpty then none
      else
        match lr.2 with
        | '@' :: l2 =>
          let dr := takeRun emailDomainCls l2
          match pickDom fcls dr.1 dr.2 (dr.1.length - 1) with
          | some (v, n) =>
            some (lr.1 ++ '@' :: (dr.1.take v ++ '.' :: (dr.1.drop (v + 1) ++ dr.2).take n))
          | none => none
        | _ => none
    else none

def emailSearchAux (fcls : Char → Bool) (prev : Option Char) : List Char → Option String
  | [] => none
  | c :: cs =>
    match emailAttempt fcls prev (c :: cs) with
    | some m => some (String.mk m)
    | none => emailSearchAux fcls (some c) cs

/-- `re.search` of the email pattern, parametrized by the final
character class. -/
def re_email_search (fcls : Char → Bool) (s : String) : Option String :=
  emailSearchAux fcls none s.toList

/-- Inner loop of `_extract_corresponding_email` over one author's
affiliation values: the first regex match is returned; `.get` on a
non-mapping raises, and `re.search` on a truthy non-string raises. -/
def affEmailScan : List PyVal → Except Unit (Option String)
  | [] => .ok none
  | aff :: rest =>
    match pyGet aff "Affiliation" (.str "") with
    | .error e => .error e
    | .ok a =>
      if pyTruthy a then
        match a with
        | .str s =>
          match re_email_search emailFinalCode s with
          | some e => .ok (some e)
          | none => affEmailScan rest
        | _ => .error ()
      else affEmailScan rest

/-- Outer loop of `_extract_corresponding_email` over the author list. -/
def authorEmailScan : List PyVal → Except Unit (Option String)
  | [] => .ok none
  | author :: rest =>
    match pyGet author "AffiliationInfo" (.list []) with
    | .error e => .error e
    | .ok ai =>
      match affEmailScan (coerceToList ai) with
      | .error e => .error e
      | .ok (some e) => .ok (some e)
      | .ok none => authorEmailScan rest

/-- `PubMedClient._extract_corresponding_email`: the catch-all and the
no-match path both return the empty string. -/
def extract_corresponding_email (article_info : PyVal) : String :=
  match
    ((match pyGet article_info "AuthorList" (.dict []) with
      | .error e => .error e
      | .ok al =>
        match pyGet al "Author" (.list []) with
        | .error e => .error e
        | .ok av => authorEmailScan (coerceToList av)) : Except Unit (Option String))
  with
  | .ok (some e) => e
  | .ok none => ""
  | .error _ => ""

/-! #### `_parse_article` -/

/-- The record `_parse_article` returns: the id and title containers are
kept raw (the source stores whatever the unwrapping produced), the three
extracted fields are strings and author records. -/
structure RawPaper where
  pmid : PyVal
  title : PyVal
  publication_date : String
  authors : List RawAuthor
  corresponding_email : String

/-- `PubMedClient._parse_article` before its catch-all. -/
def parse_article_core (article : PyVal) : Except Unit RawPaper :=
  match pyGet article "MedlineCitation" (.dict []) with
  | .error e => .error e
  | .ok medline_citation =>
  match pyGet article "PubmedData" (.dict []) with
  | .error e => .error e
  | .ok _pubmed_data =>
  match pyGet medline_citation "PMID" (.dict []) with
  | .error e => .error e
  | .ok pmid0 =>
  match pyGet pmid0 "#text" (.str "") with
  | .error e => .error e
  | .ok pmid1 =>
  let pmid := unwrapDictText pmid1
  match pyGet medline_citation "Article" (.dict []) with
  | .error e => .error e
  | .ok article_info =>
  match pyGet article_info "ArticleTitle" (.str "") with
  | .error e => .error e
  | .ok title0 =>
  let title := unwrapDictText title0
  .ok ⟨pmid, title,
       extract_publication_date article_info,
       extract_authors article_info,
       extract_corresponding_email article_info⟩

/-- `PubMedClient._parse_article`: any exception inside the boundary is
caught and the record is dropped (`None`). -/
def parse_article (article : PyVal) : Option RawPaper :=
  match parse_article_core article with
  | .ok p => some p
  | .error _ => none

/-- Whether a raw value is a mapping. -/
def isDictB : PyVal → Bool
  | .dict _ => true
  | _ => false

/-! ### Specification-side comparison definitions and concrete fixtures -/

/-- The corporate-suffix rule exactly as the specification words it:
some suffix occurs as a whitespace-delimited token that follows other
text, either bare or with a trailing dot.  Stated for comparison with
`is_non_academic`, whose actual test is a substring check. -/
def specSuffixMatch (affiliation : String) : Bool :=
  match splitWsAux (lowerL affiliation) [] with
  | [] => false
  | _ :: rest => rest.any fun t => corporate_suffixes.any fun suf =>
      t == suf.toList || t == (suf ++ ".").toList

/-- Python `"-".join` over plain strings. -/
def joinDashStrs : List String → String
  | [] => ""
  | [s] => s
  | s :: rest => s ++ "-" ++ joinDashStrs rest

/-- The publication-date rule exactly as the claim words it: join the
components that are present (a day only together with a month) and fall
back to the medline date only when no explicit component is present.
Stated for comparison with `extract_publication_date`. -/
def claimPublicationDate (y m d md : String) : String :=
  let comps := (if y ≠ "" then [y] else [])
            ++ (if m ≠ "" then [m] ++ (if d ≠ "" then [d] else []) else [])
  if comps.isEmpty then (if md ≠ "" then (year_search md).getD "" else "")
  else joinDashStrs comps

def exceptIsError {α : Type} : Except Unit α → Bool
  | .error _ => true
  | .ok _ => false

/-- An article-info mapping holding the given raw author-list entries. -/
def mkArticleAuthors (entries : List PyVal) : PyVal :=
  .dict [("AuthorList", .dict [("Author", .list entries)])]

/-- A well-shaped raw author entry with string name fields and no
affiliation info. -/
def mkAuthorEntry (forename lastname initials : String) : PyVal :=
  .dict [("LastName", .str lastname), ("ForeName", .str forename),
         ("Initials", .str initials)]

/-- An article-info mapping with the given publication-date sub-fields
(an empty string models an absent sub-field, which Python's `.get`
defaults make indistinguishable downstream). -/
def mkPubDateRec (y m d md : String) : PyVal :=
  .dict [("Journal", .dict [("JournalIssue", .dict [("PubDate",
    .dict [("Year", .str y), ("Month", .str m), ("Day", .str d),
           ("MedlineDate", .str md)])])])]

/-- A paper whose single author's affiliation classifies non-academic
(`" co"` suffix hit) but yields no extracted company name. -/
def fooCoPaper : Paper :=
  ⟨"1", "T", "2020", [⟨"A. Author", ["Foo Co"]⟩], "", [], []⟩

/-- A paper whose single author is at a known company. -/
def pfizerPaper : Paper :=
  ⟨"1", "T", "2020", [⟨"Alice Smith", ["Pfizer"]⟩], "", [], []⟩

/-- The record the filter produces from `pfizerPaper`. -/
def pfizerPaperOut : Paper :=
  ⟨"1", "T", "2020", [⟨"Alice Smith", ["Pfizer"]⟩], "", ["Alice Smith"], ["Pfizer"]⟩

/-- A filtered paper whose joined author-name field carries a newline. -/
def c8Paper : Paper := ⟨"1", "T", "2020", [], "", ["A\nB"], ["X"]⟩

/-- A raw record that is a well-formed mapping, with the id container
holding raw text instead of the expected `#text` wrapper. -/
def textPmidRecord : PyVal :=
  .dict [("MedlineCitation", .dict [("PMID", .str "123"),
         ("Article", .dict [("ArticleTitle", .str "Sample title")])])]

/-- An article info whose only affiliation text contains `x@y.a|b`. -/
def c7ArticleInfo : PyVal :=
  .dict [("AuthorList", .dict [("Author", .dict [("AffiliationInfo",
    .dict [("Affiliation", .str "reach me at x@y.a|b thanks")])])])]

def goodAuthorEntry : PyVal := mkAuthorEntry "John" "Doe" "JD"

/-! ### Helper lemmas -/

theorem leadsList_of_append {a b l : List Char} (h : leadsList (a ++ b) l = true) :
    leadsList a l = true := by
  induction a generalizing l with
  | nil => rfl
  | cons x xs ih =>
    cases l with
    | nil => simp [leadsList] at h
    | cons y ys =>
      simp only [List.cons_append, leadsList, Bool.and_eq_true] at h ⊢
      exact ⟨h.1, ih h.2⟩

theorem occursIn_of_append {a b l : List Char} (h : occursIn (a ++ b) l = true) :
    occursIn a l = true := by
  induction l with
  | nil =>
    simp only [occursIn] at h ⊢
    exact leadsList_of_append h
  | cons c cs ih =>
    simp only [occursIn, Bool.or_eq_true] at h ⊢
    rcases h with h | h
    · exact Or.inl (leadsList_of_append h)
    · exact Or.inr (ih h)

theorem any_eq_of_mem {α : Type} {l : List α} {p q : α → Bool}
    (h : ∀ x ∈ l, p x = q x) : l.any p = l.any q := by
  induction l with
  | nil => rfl
  | cons a as ih =>
    simp only [List.any_cons]
    rw [h a (List.mem_cons_self a as), ih fun x hx => h x (List.mem_cons_of_mem a hx)]

theorem setAdd_ne_nil (s : List String) (x : String) : setAdd s x ≠ [] := by
  unfold setAdd
  split
  · rename_i hc
    intro h
    subst h
    simp at hc
  · simp

theorem setUnion_ne_nil_left {s : List String} (xs : List String) (h : s ≠ []) :
    setUnion s xs ≠ [] := by
  induction xs generalizing s with
  | nil => exact h
  | cons x xs ih => exact ih (setAdd_ne_nil s x)

theorem setUnion_eq_nil_iff (s xs : List String) :
    setUnion s xs = [] ↔ s = [] ∧ xs = [] := by
  constructor
  · intro h
    cases xs with
    | nil => exact ⟨h, rfl⟩
    | cons x xs =>
      exact absurd h (setUnion_ne_nil_left (s := setAdd s x) xs (setAdd_ne_nil s x))
  · rintro ⟨rfl, rfl⟩
    rfl

theorem detect_foldl_nil_iff (affiliations : List String) :
    ∀ acc, affiliations.foldl detectStep acc = []
      ↔ acc = [] ∧ ∀ aff ∈ affiliations,
          is_non_academic aff = true → extract_company_names aff = [] := by
  induction affiliations with
  | nil => intro acc; simp
  | cons aff affs ih =>
    intro acc
    simp only [List.foldl_cons, List.mem_cons]
    rw [ih]
    unfold detectStep
    by_cases hna : is_non_academic aff
    · simp only [hna, if_true, setUnion_eq_nil_iff]
      constructor
      · rintro ⟨⟨ha, he⟩, hrest⟩
        refine ⟨ha, fun x hx => ?_⟩
        rcases hx with rfl | hx
        · intro _; exact he
        · exact hrest x hx
      · rintro ⟨ha, hall⟩
        exact ⟨⟨ha, hall aff (Or.inl rfl) hna⟩, fun x hx => hall x (Or.inr hx)⟩
    · simp only [hna, if_false]
      constructor
      · rintro ⟨ha, hrest⟩
        refine ⟨ha, fun x hx => ?_⟩
        rcases hx with rfl | hx
        · intro hx'; exact absurd hx' hna
        · exact hrest x hx
      · rintro ⟨ha, hall⟩
        exact ⟨ha, fun x hx => hall x (Or.inr hx)⟩

theorem paperState_fst_nil_iff (authors : List Author) :
    ∀ st : List String × List String,
      (authors.foldl authorStepFilter st).1 = []
        ↔ st.1 = [] ∧ ∀ a ∈ authors, detect_companies a.affiliations = [] := by
  induction authors with
  | nil => intro st; simp
  | cons a as ih =>
    intro st
    simp only [List.foldl_cons, List.mem_cons]
    rw [ih]
    unfold authorStepFilter
    by_cases hc : (detect_companies a.affiliations).isEmpty
    · have hd : detect_companies a.affiliations = [] := by
        simpa using hc
      simp only [hc, if_true]
      constructor
      · rintro ⟨h1, hrest⟩
        refine ⟨h1, fun x hx => ?_⟩
        rcases hx with rfl | hx
        · exact hd
        · exact hrest x hx
      · rintro ⟨h1, hall⟩
        exact ⟨h1, fun x hx => hall x (Or.inr hx)⟩
    · have hd : detect_companies a.affiliations ≠ [] := by
        intro h
        rw [h] at hc
        simp at hc
      simp only [hc, if_false]
      constructor
      · rintro ⟨habs, _⟩
        exact absurd habs (by simp)
      · rintro ⟨_, hall⟩
        exact absurd (hall a (Or.inl rfl)) hd

theorem paperState_snd_of_fst (authors : List Author) :
    ∀ st : List String × List String, (st.2 = [] → st.1 = []) →
      (authors.foldl authorStepFilter st).2 = []
        → (authors.foldl authorStepFilter st).1 = [] := by
  induction authors with
  | nil => intro st h; exact h
  | cons a as ih =>
    intro st hst
    simp only [List.foldl_cons]
    apply ih
    unfold authorStepFilter
    by_cases hc : (detect_companies a.affiliations).isEmpty
    · rw [if_pos hc]
      exact hst
    · rw [if_neg hc]
      intro h2
      replace h2 : setUnion st.2 (detect_companies a.affiliations) = [] := h2
      rw [setUnion_eq_nil_iff] at h2
      refine absurd h2.2 fun h => ?_
      rw [h] at hc
      simp at hc

/-! ### Claims about the affiliation classifier -/

/-- C2: any affiliation containing an academic-institution keyword as a
case-insensitive substring classifies academic — `_is_non_academic`
returns false and `detect_companies` extracts nothing from it, even if
corporate tokens are also present. -/
theorem C2_academic_dominance (aff : String)
    (h : academic_indicators.any (fun k => occursIn k.toList (lowerL aff)) = true) :
    is_non_academic aff = false ∧ detect_companies [aff] = [] := by
  have h1 : is_non_academic aff = false := by
    simp only [is_non_academic]
    rw [if_pos h]
  refine ⟨h1, ?_⟩
  simp [detect_companies, detectStep, h1]

/-- Concrete instance of C2 at an affiliation carrying both a known
company name and academic keywords. -/
theorem C2_academic_dominance_witness :
    is_non_academic "Pfizer Research Fellow, Harvard Medical School" = false ∧
    detect_companies ["Pfizer Research Fellow, Harvard Medical School"] = [] :=
  C2_academic_dominance _ (by decide)

/-- C4 counterexample: "Xyz Cosmetics" carries no academic keyword, no
industry indicator and no known company name, and no corporate suffix
occurs in it as a whitespace-delimited token — yet `_is_non_academic`
classifies it non-academic, because the substring check `" co"` fires
inside the longer word "Cosmetics". -/
theorem C4_suffix_token_counterexample :
    is_non_academic "Xyz Cosmetics" = true ∧
    specSuffixMatch "Xyz Cosmetics" = false ∧
    academic_indicators.any (fun k => occursIn k.toList (lowerL "Xyz Cosmetics")) = false ∧
    company_indicators.any (fun k => occursIn k.toList (lowerL "Xyz Cosmetics")) = false ∧
    known_companies.any (fun c => occursIn c.toList (lowerL "Xyz Cosmetics")) = false := by
  decide

/-- C4 (amended): on affiliations with no academic keyword, no industry
indicator and no known company name, `_is_non_academic` returns true
exactly when some corporate suffix occurs immediately preceded by a
space anywhere in the lower-cased text (the `" suffix."` disjunct of the
source is subsumed by the `" suffix"` one); the suffix may be the start
of a longer word. -/
theorem C4_suffix_rule_amended (aff : String)
    (h1 : academic_indicators.any (fun k => occursIn k.toList (lowerL aff)) = false)
    (h2 : company_indicators.any (fun k => occursIn k.toList (lowerL aff)) = false)
    (h3 : known_companies.any (fun c => occursIn c.toList (lowerL aff)) = false) :
    is_non_academic aff
      = corporate_suffixes.any (fun suf => occursIn (" " ++ suf).toList (lowerL aff)) := by
  unfold is_non_academic
  simp only [h1, h2, h3, Bool.false_eq_true, if_false]
  have hsplit : ∀ suf : String,
      (" " ++ suf ++ ".").toList = (" " ++ suf).toList ++ ['.'] := by
    intro suf
    show ((" " ++ suf) ++ ".").data = (" " ++ suf).data ++ ['.']
    rw [String.data_append]
  have hpt : ∀ suf ∈ corporate_suffixes,
      (occursIn (" " ++ suf).toList (lowerL aff)
        || occursIn (" " ++ suf ++ ".").toList (lowerL aff))
        = occursIn (" " ++ suf).toList (lowerL aff) := by
    intro suf _
    cases hA : occursIn (" " ++ suf).toList (lowerL aff) with
    | true => simp
    | false =>
      simp only [Bool.false_or]
      cases hB : occursIn (" " ++ suf ++ ".").toList (lowerL aff) with
      | false => rfl
      | true =>
        rw [hsplit suf] at hB
        rw [occursIn_of_append hB] at hA
        exact absurd hA (by simp)
  rw [any_eq_of_mem hpt]
  cases h4 : corporate_suffixes.any fun suf => occursIn (" " ++ suf).toList (lowerL aff) with
  | true => simp [h4]
  | false => simp [h4]

/-- Concrete instance of C4's amended rule at "Xyz Cosmetics". -/
theorem C4_suffix_rule_witness :
    is_non_academic "Xyz Cosmetics"
      = corporate_suffixes.any
          (fun suf => occursIn (" " ++ suf).toList (lowerL "Xyz Cosmetics")) :=
  C4_suffix_rule_amended "Xyz Cosmetics" (by decide) (by decide) (by decide)

/-! ### Claims about the paper filter -/

/-- C1 counterexample: the paper whose only affiliation is "Foo Co" has
an author with an affiliation that classifies non-academic, yet the
filter's output is empty — retention is keyed on the detected-company
list being non-empty, not on the classification alone. -/
theorem C1_inclusion_law_counterexample :
    filter_papers_with_company_authors [fooCoPaper] = [] ∧
    fooCoPaper.authors.any (fun a => a.affiliations.any is_non_academic) = true := by
  decide

/-- C1 (amended): a paper is retained by
`filter_papers_with_company_authors` exactly when some author's
affiliations produce a non-empty `detect_companies` result — that is,
when some affiliation both classifies non-academic and yields at least
one extracted company name; retained papers gain both derived fields,
dropped papers never appear in the output. -/
theorem C1_filter_characterization :
    (∀ papers : List Paper,
      filter_papers_with_company_authors papers
        = (papers.filter fun p => !(paperState p.authors).1.isEmpty).map
            fun p => { p with non_academic_authors := (paperState p.authors).1,
                              company_affiliations := (paperState p.authors).2 })
    ∧ (∀ authors : List Author,
        (paperState authors).1 = [] ↔ ∀ a ∈ authors, detect_companies a.affiliations = [])
    ∧ (∀ affiliations : List String,
        detect_companies affiliations = []
          ↔ ∀ aff ∈ affiliations,
              is_non_academic aff = true → extract_company_names aff = []) := by
  refine ⟨?_, ?_, ?_⟩
  · intro papers
    induction papers with
    | nil => rfl
    | cons q qs ih =>
      by_cases hq : (paperState q.authors).1.isEmpty
      · simp only [filter_papers_with_company_authors, List.filter_cons, hq,
          Bool.not_true, Bool.false_eq_true, if_false, if_true, if_pos hq, ih]
      · simp only [filter_papers_with_company_authors, List.filter_cons, ih, if_neg hq]
        rw [if_pos]
        · rfl
        · simp [Bool.not_eq_true'] at hq ⊢
          exact hq
  · intro authors
    simpa using paperState_fst_nil_iff authors ([], [])
  · intro affs
    simpa using detect_foldl_nil_iff affs []

/-- C9: every paper the filter outputs has both derived fields
non-empty — the author-name list and the company set are populated
together. -/
theorem C9_derived_fields_together (papers : List Paper) (p : Paper)
    (hp : p ∈ filter_papers_with_company_authors papers) :
    p.non_academic_authors ≠ [] ∧ p.company_affiliations ≠ [] := by
  induction papers with
  | nil => simp [filter_papers_with_company_authors] at hp
  | cons q qs ih =>
    unfold filter_papers_with_company_authors at hp
    by_cases hq : (paperState q.authors).1.isEmpty
    · rw [if_pos hq] at hp
      exact ih hp
    · rw [if_neg hq] at hp
      rcases List.mem_cons.mp hp with rfl | hp
      · have h1 : (paperState q.authors).1 ≠ [] := by
          intro h
          rw [h] at hq
          simp at hq
        have h2 : (paperState q.authors).2 ≠ [] := by
          intro h
          exact h1 (paperState_snd_of_fst q.authors ([], []) (fun _ => rfl) h)
        exact ⟨h1, h2⟩
      · exact ih hp

/-- Concrete instance of C9 at a single-author Pfizer paper. -/
theorem C9_derived_fields_together_witness :
    pfizerPaperOut.non_academic_authors ≠ [] ∧
    pfizerPaperOut.company_affiliations ≠ [] :=
  C9_derived_fields_together [pfizerPaper] pfizerPaperOut (by decide)

/-! ### Claims about the CSV serializer -/

theorem mem_replCh {c a b : Char} {l : List Char} (h : c ∈ replCh a b l) :
    c ∈ l ∨ c = b := by
  unfold replCh at h
  rcases List.mem_map.mp h with ⟨x, hx, hfx⟩
  by_cases hxa : x == a
  · right
    rw [if_pos hxa] at hfx
    exact hfx.symm
  · left
    rw [if_neg hxa] at hfx
    rw [← hfx]
    exact hx

theorem not_mem_replCh_self {a b : Char} (hab : a ≠ b) (l : List Char) :
    a ∉ replCh a b l := by
  intro h
  rcases List.mem_map.mp h with ⟨x, _, hfx⟩
  by_cases hxa : x == a
  · rw [if_pos hxa] at hfx
    exact hab hfx.symm
  · rw [if_neg hxa] at hfx
    exact hxa (beq_iff_eq.mpr hfx)

theorem collapse_text_no_ctl (t : String) :
    '\n' ∉ collapse_text t ∧ '\r' ∉ collapse_text t ∧ '\t' ∉ collapse_text t := by
  unfold collapse_text
  refine ⟨?_, ?_, ?_⟩
  · intro h
    rcases mem_replCh h with h | h
    · rcases mem_replCh h with h | h
      · exact not_mem_replCh_self (by decide) _ h
      · exact absurd h (by decide)
    · exact absurd h (by decide)
  · intro h
    rcases mem_replCh h with h | h
    · exact not_mem_replCh_self (by decide) _ h
    · exact absurd h (by decide)
  · intro h
    exact not_mem_replCh_self (by decide) _ h

theorem string_mk_length (l : List Char) : (String.mk l).length = l.length := rfl

theorem string_mk_toList (l : List Char) : (String.mk l).toList = l := rfl

theorem clean_text_length_le (t : String) : (clean_text t).length ≤ 1000 := by
  unfold clean_text
  split
  · simp [String.length]
  · rw [string_mk_length]
    split
    · rename_i hlen
      rw [List.length_append, List.length_take]
      simp only [List.length_cons, List.length_nil]
      omega
    · rename_i hlen
      omega

theorem clean_text_no_ctl (t : String) :
    '\n' ∉ (clean_text t).toList ∧ '\r' ∉ (clean_text t).toList ∧
    '\t' ∉ (clean_text t).toList := by
  have hc := collapse_text_no_ctl t
  unfold clean_text
  split
  · exact ⟨by simp, by simp, by simp⟩
  · rw [string_mk_toList]
    split
    · refine ⟨?_, ?_, ?_⟩ <;> intro h <;> rcases List.mem_append.mp h with h | h
      · exact hc.1 (List.take_subset _ _ h)
      · exact absurd h (by decide)
      · exact hc.2.1 (List.take_subset _ _ h)
      · exact absurd h (by decide)
      · exact hc.2.2 (List.take_subset _ _ h)
      · exact absurd h (by decide)
    · exact hc

theorem clean_text_truncates (t : String) (h : 1000 < (collapse_text t).length) :
    (clean_text t).length = 1000 ∧ (clean_text t).toList.drop 997 = ['.', '.', '.'] := by
  have ht : ¬(t == "") = true := by
    intro he
    have ht0 : t = "" := by
      exact beq_iff_eq.mp he
    subst ht0
    have : collapse_text "" = [] := rfl
    rw [this] at h
    simp at h
  unfold clean_text
  rw [if_neg ht, if_pos h]
  have h997 : (List.take 997 (collapse_text t)).length = 997 := by
    rw [List.length_take]
    omega
  constructor
  · rw [string_mk_length, List.length_append, h997]
    rfl
  · rw [string_mk_toList]
    have hdl := List.drop_left (List.take 997 (collapse_text t)) ['.', '.', '.']
    rw [h997] at hdl
    exact hdl

/-- C8 counterexample: the filter's author-name column passes through
`_format_paper_row` verbatim — a newline inside a non-academic author
name reaches the row uncollapsed, so not every text field of the row is
whitespace-normalized. -/
theorem C8_all_fields_counterexample :
    format_paper_row c8Paper = ["1", "T", "2020", "A\nB", "X", ""] ∧
    '\n' ∈ "A\nB".toList := by
  decide

/-- C8 (amended): only the Title column is cleaned — the row is the six
raw fields with `_clean_text` applied to the title alone; `_clean_text`
output carries no newline, carriage return or tab, never exceeds 1000
characters, and when the collapsed text is longer than 1000 characters
the result is exactly 1000 characters ending in the three-character
ellipsis. -/
theorem C8_title_cleaning_amended :
    (∀ p : Paper, format_paper_row p
        = [p.pmid, clean_text p.title, p.publication_date,
           joinSemicolon p.non_academic_authors, joinSemicolon p.company_affiliations,
           p.corresponding_email])
    ∧ (∀ t : String, (clean_text t).length ≤ 1000
        ∧ '\n' ∉ (clean_text t).toList ∧ '\r' ∉ (clean_text t).toList
        ∧ '\t' ∉ (clean_text t).toList)
    ∧ (∀ t : String, 1000 < (collapse_text t).length →
        (clean_text t).length = 1000 ∧ (clean_text t).toList.drop 997 = ['.', '.', '.']) := by
  refine ⟨fun p => rfl, fun t => ?_, clean_text_truncates⟩
  exact ⟨clean_text_length_le t, clean_text_no_ctl t⟩

set_option maxRecDepth 20000 in
/-- Concrete instance of C8's truncation clause at a 1001-character
title. -/
theorem C8_title_cleaning_witness :
    (clean_text (String.mk (List.replicate 1001 'a'))).length = 1000 ∧
    (clean_text (String.mk (List.replicate 1001 'a'))).toList.drop 997
      = ['.', '.', '.'] :=
  C8_title_cleaning_amended.2.2 _ (by decide)

/-! ### Claims about the record normalizer -/

/-- C3 counterexample: a raw record that is a well-formed mapping but
whose id container holds raw text instead of the expected wrapper is
dropped entirely by `_parse_article` (the attribute error propagates to
the record-level handler), instead of degrading just the id field. -/
theorem C3_field_error_counterexample :
    (parse_article textPmidRecord).isNone = true ∧ isDictB textPmidRecord = true := by
  decide

/-- C3 (amended): normalization never raises past the `_parse_article`
boundary, and a record that is not a mapping is dropped — but an
unexpected shape that raises inside the inline id extraction (the PMID
container holding raw text) also drops the whole record, while the
publication-date, author and email fields are extracted by sub-functions
with their own catch-alls, so arbitrary shapes inside them still yield a
normalized record. -/
theorem C3_failure_policy_amended :
    (∀ v : PyVal, isDictB v = false → parse_article v = none)
    ∧ (∀ (s : String) (ms rest : List (String × PyVal)),
        parse_article (.dict (("MedlineCitation", .dict (("PMID", .str s) :: ms)) :: rest))
          = none)
    ∧ (∀ (pm : String) (info : List (String × PyVal)),
        parse_article (.dict [("MedlineCitation",
            .dict [("PMID", .dict [("#text", .str pm)]), ("Article", .dict info)])])
          = some ⟨.str pm,
                  unwrapDictText ((pyLookup info "ArticleTitle").getD (.str "")),
                  extract_publication_date (.dict info),
                  extract_authors (.dict info),
                  extract_corresponding_email (.dict info)⟩) := by
  refine ⟨?_, ?_, ?_⟩
  · intro v hv
    cases v with
    | str s => rfl
    | dict es => simp [isDictB] at hv
    | list xs => rfl
  · intro s ms rest
    rfl
  · intro pm info
    rfl

/-- Concrete instance of C3's amended record-drop clauses. -/
theorem C3_failure_policy_witness :
    parse_article (.str "not a mapping") = none ∧
    parse_article (.dict [("MedlineCitation", .dict [("PMID", .str "9")])]) = none :=
  ⟨C3_failure_policy_amended.1 (.str "not a mapping") rfl,
   C3_failure_policy_amended.2.1 "9" [] []⟩

/-- C5 counterexample: an author entry with empty forename and lastname
but non-empty initials is discarded by `_extract_authors`, although the
claimed fallback construction "{initials} {lastname}" trimmed is the
non-empty "AB". -/
theorem C5_initials_fallback_counterexample :
    (extract_authors (mkArticleAuthors [mkAuthorEntry "" "" "AB"])).isEmpty = true ∧
    pyStrip ("AB" ++ " " ++ "") = "AB" := by
  decide

/-- C5 (amended): the author name is "{forename} {lastname}" trimmed;
the fallback to "{initials} {lastname}" trimmed is attempted only when
that is empty AND both initials and lastname are non-empty, and the
entry is kept exactly when the resulting name is non-empty — an entry
with empty forename and lastname is always discarded, whatever its
initials. -/
theorem C5_author_name_rule_amended (f l i : String) :
    extract_authors (mkArticleAuthors [mkAuthorEntry f l i])
      = (let name0 := pyStrip (f ++ " " ++ l)
         let name := if name0 = "" ∧ i ≠ "" ∧ l ≠ "" then pyStrip (i ++ " " ++ l)
                     else name0
         if name = "" then [] else [⟨name, []⟩]) := by
  by_cases h0 : pyStrip (f ++ " " ++ l) = "" <;>
    by_cases hi : i = "" <;>
      by_cases hl : l = "" <;>
        (simp [extract_authors, extract_authors_core, goEntries, authorStep,
          mkArticleAuthors, mkAuthorEntry, pyGet, pyLookup, coerceToList, collectAffs,
          pyStrOf, pyTruthy, unwrapDictText, h0, hi, hl, beq_iff_eq, bne_iff_ne] <;>
          (try (by_cases hn : pyStrip (f ++ " ") = "" <;> simp [hn])) <;>
          (try (by_cases hn2 : pyStrip (i ++ " " ++ l) = "" <;> simp [hn2])))

/-- C6 counterexample: with no Year but an explicit Month "Jan" and
MedlineDate "2001 Spring", the code falls back to the medline date and
returns "2001", while the claim's join-the-present-components rule
yields "Jan" (the fallback being reserved for records with no explicit
component at all). -/
theorem C6_month_without_year_counterexample :
    extract_publication_date (mkPubDateRec "" "Jan" "" "2001 Spring") = "2001" ∧
    claimPublicationDate "" "Jan" "" "2001 Spring" = "Jan" := by
  decide

/-- C6 (amended): the normalized publication date is
Year[-Month[-Day]] — a day only together with a month — whenever the
Year sub-field is non-empty; when Year is missing or empty the code goes
straight to the MedlineDate fallback (first 19xx/20xx token, else empty),
ignoring any Month or Day that may be present. -/
theorem C6_publication_date_rule_amended (y m d md : String) :
    extract_publication_date (mkPubDateRec y m d md)
      = if y ≠ "" then
          (if m ≠ "" then (if d ≠ "" then y ++ "-" ++ (m ++ "-" ++ d) else y ++ "-" ++ m)
           else y)
        else if md ≠ "" then (year_search md).getD ""
        else "" := by
  by_cases hy : y = "" <;>
    by_cases hm : m = "" <;>
      by_cases hd : d = "" <;>
        by_cases hmd : md = "" <;>
          simp [extract_publication_date, extract_publication_date_core, mkPubDateRec,
            pyGet, pyLookup, pyTruthy, pyJoinDash, hy, hm, hd, hmd, bne_iff_ne]

/-- C7: at the affiliation "reach me at x@y.a|b thanks" the code's email
pattern — whose final character class `[A-Z|a-z]` contains a literal
pipe — extracts "x@y.a|b", while the pattern the specification
describes (final label of 2 or more alphabetic characters) matches
nothing in that text, so the claimed result would be the empty string. -/
theorem C7_email_pattern_divergence :
    extract_corresponding_email c7ArticleInfo = "x@y.a|b" ∧
    re_email_search emailFinalSpec "reach me at x@y.a|b thanks" = none ∧
    '|' ∈ "x@y.a|b".toList := by
  decide

/-- C10: if any single entry of the raw author list raises during
processing (for instance a non-mapping entry), `_extract_authors`
returns the empty list — every well-formed author before and after the
bad entry is discarded with it. -/
theorem C10_author_error_collapse (entries : List PyVal) (e : PyVal)
    (he : e ∈ entries) (hbad : exceptIsError (authorStep e) = true) :
    extract_authors (mkArticleAuthors entries) = [] := by
  have hgo : ∀ es : List PyVal, e ∈ es → exceptIsError (goEntries es) = true := by
    intro es hmem
    induction es with
    | nil => simp at hmem
    | cons a as ih =>
      rcases List.mem_cons.mp hmem with rfl | hmem'
      · cases hae : authorStep e with
        | error err => simp [goEntries, hae, exceptIsError]
        | ok r =>
          rw [hae] at hbad
          simp [exceptIsError] at hbad
      · cases hae : authorStep a with
        | error err => simp [goEntries, hae, exceptIsError]
        | ok r =>
          have hrec := ih hmem'
          cases hg : goEntries as with
          | error err => simp [goEntries, hae, hg, exceptIsError]
          | ok rs =>
            rw [hg] at hrec
            simp [exceptIsError] at hrec
  have hent := hgo entries he
  show (match extract_authors_core (mkArticleAuthors entries) with
        | .ok l => l
        | .error _ => []) = []
  have hcore : extract_authors_core (mkArticleAuthors entries) = goEntries entries := rfl
  rw [hcore]
  cases hg : goEntries entries with
  | error err => rfl
  | ok rs =>
    rw [hg] at hent
    simp [exceptIsError] at hent

/-- Concrete instance of C10: one well-formed author followed by a
non-mapping entry yields no authors at all. -/
theorem C10_author_error_collapse_witness :
    extract_authors (mkArticleAuthors [goodAuthorEntry, PyVal.str "oops"]) = [] :=
  C10_author_error_collapse [goodAuthorEntry, PyVal.str "oops"] (PyVal.str "oops")
    (List.Mem.tail _ (List.Mem.head _)) rfl

end PaperPipeline
